import Mathlib

/-!
Verification of the APDU communication engine of the Ledger device SDK
(`src/ledger_device_sdk/src/io.rs`).

The engine is shallowly embedded: the 260-byte APDU buffer is modelled as a
total function `Nat → Nat` holding byte values, and every Rust buffer access
that can panic (index out of the 260-byte range) is modelled by an `Option`
result, `none` standing for the aborted computation.  External collaborators
(the seph transport layer, the BOLOS registry, the button decoder) are out of
scope of the source file; where a claim needs them they are modelled from the
specification and documented as such.
-/

namespace Ledger

/-- Capacity of the APDU buffer: `apdu_buffer: [u8; 260]`. -/
def BUF_CAP : Nat := 260

/-- Pointwise update of a buffer modelled as a function. -/
def updateF (f : Nat → Nat) (i v : Nat) : Nat → Nat :=
  fun j => if j = i then v else f j

/-- Write a list of bytes starting at offset `off` (raw-pointer style write,
no bounds check, mirroring writes performed through raw pointers in C). -/
def writeBytesF : (Nat → Nat) → Nat → List Nat → (Nat → Nat)
  | f, _, [] => f
  | f, off, b :: rest => writeBytesF (updateF f off b) (off + 1) rest

/-- The slice `buf[off .. off+len]` of a function-modelled buffer. -/
def sliceF (f : Nat → Nat) (off len : Nat) : List Nat :=
  (List.range len).map (fun i => f (off + i))

/-- Checked single-byte write: Rust `self.apdu_buffer[i] = v` panics when
`i` is outside the 260-byte array; the panic is modelled by `none`. -/
def bufWrite (f : Nat → Nat) (i v : Nat) : Option (Nat → Nat) :=
  if i < BUF_CAP then some (updateF f i v) else none

/-- Status words, `enum StatusWords` (io.rs lines 13-25). -/
inductive StatusWords where
  | ok
  | nothingReceived
  | badCla
  | badIns
  | badP1P2
  | badLen
  | userCancelled
  | unknown
  | panic
  deriving DecidableEq

/-- The `u16` discriminants of `StatusWords` as given in the source. -/
def StatusWords.code : StatusWords → Nat
  | .ok => 0x9000
  | .nothingReceived => 0x6982
  | .badCla => 0x6e00
  | .badIns => 0x6e01
  | .badP1P2 => 0x6e02
  | .badLen => 0x6e03
  | .userCancelled => 0x6e04
  | .unknown => 0x6d00
  | .panic => 0xe000

/-- Syscall errors, `enum SyscallError` (io.rs lines 27-40). -/
inductive SyscallError where
  | invalidParameter
  | overflow
  | security
  | invalidCrc
  | invalidChecksum
  | invalidCounter
  | notSupported
  | invalidState
  | timeout
  | unspecified
  deriving DecidableEq

/-- The `u8` discriminants of `SyscallError`: `InvalidParameter = 2` and the
following variants take the successive values 3..11. -/
def SyscallError.code : SyscallError → Nat
  | .invalidParameter => 2
  | .overflow => 3
  | .security => 4
  | .invalidCrc => 5
  | .invalidChecksum => 6
  | .invalidCounter => 7
  | .notSupported => 8
  | .invalidState => 9
  | .timeout => 10
  | .unspecified => 11

/-- `struct Reply(pub u16)` (io.rs line 63). -/
structure Reply where
  val : Nat
  deriving DecidableEq

/-- `impl From<StatusWords> for Reply`: `Reply(sw as u16)`. -/
def Reply.fromStatus (sw : StatusWords) : Reply := ⟨sw.code⟩

/-- `impl From<SyscallError> for Reply`: `Reply(0x6800 + exc as u16)`. -/
def Reply.fromSyscall (exc : SyscallError) : Reply := ⟨0x6800 + exc.code⟩

/-- `core::convert::Infallible`: an uninhabited type. -/
inductive Infallible : Type

/-- `impl From<Infallible> for Reply`: the body returns `Reply(0x9000)`. -/
def Reply.fromInfallible (_ : Infallible) : Reply := ⟨0x9000⟩

/-- C8: the conversions into `Reply` carry the enumerated 16-bit code of each
`StatusWords` value; `0x6800` plus the numeric code of each `SyscallError`
(in particular `Security`, code 4, yields `0x6804`); and `0x9000` (Ok) for
the infallible no-error marker. -/
theorem reply_conversions :
    (Reply.fromStatus .ok).val = 0x9000 ∧
    (Reply.fromStatus .nothingReceived).val = 0x6982 ∧
    (Reply.fromStatus .badCla).val = 0x6e00 ∧
    (Reply.fromStatus .badIns).val = 0x6e01 ∧
    (Reply.fromStatus .badP1P2).val = 0x6e02 ∧
    (Reply.fromStatus .badLen).val = 0x6e03 ∧
    (Reply.fromStatus .userCancelled).val = 0x6e04 ∧
    (Reply.fromStatus .unknown).val = 0x6d00 ∧
    (Reply.fromStatus .panic).val = 0xe000 ∧
    (∀ e : SyscallError, (Reply.fromSyscall e).val = 0x6800 + e.code) ∧
    SyscallError.code .security = 4 ∧
    (Reply.fromSyscall .security).val = 0x6804 ∧
    (∀ v : Infallible, (Reply.fromInfallible v).val = 0x9000) := by
  refine ⟨rfl, rfl, rfl, rfl, rfl, rfl, rfl, rfl, rfl, fun e => rfl, rfl, rfl, fun v => rfl⟩

/-- Events returned by `Comm::next_event` (io.rs lines 88-95).  Button events
are produced by the external button decoder; their payload is abstracted. -/
inductive Event (T : Type) where
  | command (t : T)
  | button (b : Nat)
  | ticker

/-- `struct ApduHeader` (io.rs lines 119-128). -/
structure ApduHeader where
  cla : Nat
  ins : Nat
  p1 : Nat
  p2 : Nat
  deriving DecidableEq

/-- `struct Comm` (io.rs lines 99-109).  The button decoder state is external
(`ButtonsState`); it is abstracted as a number.  The fixed 260-byte
`apdu_buffer` is modelled as a total function on indices. -/
structure Comm where
  apdu_buffer : Nat → Nat
  rx : Nat
  tx : Nat
  buttons : Nat
  expected_cla : Option Nat

/-- `Comm::new` (io.rs lines 132-140). -/
def Comm.new : Comm :=
  { apdu_buffer := fun _ => 0, rx := 0, tx := 0, buttons := 0, expected_cla := none }

instance : Inhabited Comm := ⟨Comm.new⟩

/-- `Comm::get_apdu_metadata` (io.rs lines 465-469): view of the first four
buffer bytes as CLA, INS, P1, P2. -/
def get_apdu_metadata (c : Comm) : ApduHeader :=
  ⟨c.apdu_buffer 0, c.apdu_buffer 1, c.apdu_buffer 2, c.apdu_buffer 3⟩

/-- The closure `get_data_from_buffer` inside `Comm::get_data` (io.rs lines
476-482): rejects a zero length or a length exceeding `rx`, otherwise returns
the slice `apdu_buffer[offset..offset + len]`.  Taking the slice panics (here:
`none`) when it overruns the 260-byte array. -/
def get_data_from_buffer (c : Comm) (len offset : Nat) :
    Option (Except StatusWords (List Nat)) :=
  if len = 0 ∨ len + offset > c.rx then some (Except.error StatusWords.badLen)
  else if offset + len ≤ BUF_CAP then some (Except.ok (sliceF c.apdu_buffer offset len))
  else none

/-- `Comm::get_data` (io.rs lines 471-494).  The Rust `match` on
`(first_len_byte, self.rx)` with arms `(0, 5)`, `(0, 6)`, `(0, _)`, `(len, _)`
is translated into the equivalent sequential tests. -/
def get_data (c : Comm) : Option (Except StatusWords (List Nat)) :=
  if c.rx = 4 then some (Except.ok [])
  else
    let first_len_byte := c.apdu_buffer 4
    if first_len_byte = 0 then
      if c.rx = 5 then some (Except.ok [])
      else if c.rx = 6 then some (Except.error StatusWords.badLen)
      else get_data_from_buffer c (c.apdu_buffer 5 + 256 * c.apdu_buffer 6) 7
    else get_data_from_buffer c first_len_byte 5

/-- C1: the complete case analysis of `get_data` on states with `rx ≥ 4` (and
`rx` within the 260-byte buffer capacity).  The five cases are read in order,
the first matching one applying, as in the source `match`. -/
theorem getData_spec (c : Comm) (h4 : 4 ≤ c.rx) (hcap : c.rx ≤ BUF_CAP) :
    (c.rx = 4 → get_data c = some (Except.ok [])) ∧
    (c.rx = 5 → c.apdu_buffer 4 = 0 → get_data c = some (Except.ok [])) ∧
    (c.rx = 6 → c.apdu_buffer 4 = 0 →
      get_data c = some (Except.error StatusWords.badLen)) ∧
    (6 < c.rx → c.apdu_buffer 4 = 0 →
      (if c.apdu_buffer 5 + 256 * c.apdu_buffer 6 ≠ 0 ∧
          7 + (c.apdu_buffer 5 + 256 * c.apdu_buffer 6) ≤ c.rx then
         get_data c =
           some (Except.ok (sliceF c.apdu_buffer 7 (c.apdu_buffer 5 + 256 * c.apdu_buffer 6)))
       else get_data c = some (Except.error StatusWords.badLen))) ∧
    (5 ≤ c.rx → c.apdu_buffer 4 ≠ 0 →
      (if 5 + c.apdu_buffer 4 ≤ c.rx then
         get_data c = some (Except.ok (sliceF c.apdu_buffer 5 (c.apdu_buffer 4)))
       else get_data c = some (Except.error StatusWords.badLen))) := by
  have hc : c.rx ≤ 260 := hcap
  refine ⟨?_, ?_, ?_, ?_, ?_⟩
  · intro h
    simp [get_data, h]
  · intro h hb
    simp [get_data, h, hb]
  · intro h hb
    simp [get_data, h, hb]
  · intro h hb
    rw [show get_data c
          = get_data_from_buffer c (c.apdu_buffer 5 + 256 * c.apdu_buffer 6) 7 from by
        simp [get_data, hb]
        split_ifs <;> first | rfl | (exfalso; omega)]
    unfold get_data_from_buffer
    rw [show (BUF_CAP : Nat) = 260 from rfl]
    split_ifs <;> first | rfl | (exfalso; omega)
  · intro h hb
    rw [show get_data c = get_data_from_buffer c (c.apdu_buffer 4) 5 from by
        simp [get_data, hb, show ¬ c.rx = 4 from by omega]]
    unfold get_data_from_buffer
    rw [show (BUF_CAP : Nat) = 260 from rfl]
    split_ifs <;> first | rfl | (exfalso; omega)

/-- A concrete conforming zero-data command: buffer starting with a header and
`rx = 4`. -/
def c1Comm : Comm :=
  { apdu_buffer := writeBytesF (fun _ => 0) 0 [0xE0, 0x02, 0x00, 0x00], rx := 4,
    tx := 0, buttons := 0, expected_cla := none }

theorem getData_spec_witness : get_data c1Comm = some (Except.ok []) :=
  (getData_spec c1Comm (by decide) (by decide)).1 rfl

/-- C10: calling `get_data` on a state with `rx < 4` always yields `BadLen`:
every case of the parser demands at least `rx` bytes past the data offset, and
`rx < 4` satisfies none of them. -/
theorem getData_short_rx (c : Comm) (h : c.rx < 4) :
    get_data c = some (Except.error StatusWords.badLen) := by
  simp only [get_data, get_data_from_buffer]
  rw [if_neg (by omega)]
  by_cases hb : c.apdu_buffer 4 = 0
  · rw [if_pos hb, if_neg (by omega), if_neg (by omega), if_pos (by omega)]
  · rw [if_neg hb, if_pos (by omega)]

/-- A state with a non-zero byte at index 4 but `rx = 0`. -/
def c10Comm : Comm :=
  { apdu_buffer := writeBytesF (fun _ => 0) 0 [0xE0, 0x02, 0x00, 0x00, 0x05], rx := 0,
    tx := 0, buttons := 0, expected_cla := none }

theorem getData_short_rx_witness :
    get_data c10Comm = some (Except.error StatusWords.badLen) :=
  getData_short_rx c10Comm (by decide)

/-- The value of `G_io_app.apdu_state`: `APDU_IDLE` or one of the active
transport states matched in `Comm::apdu_send` (`APDU_USB_HID`, `APDU_RAW`,
`APDU_USB_CCID`, `APDU_BLE`). -/
inductive ApduState where
  | idle
  | usbHid
  | raw
  | usbCcid
  | ble
  deriving DecidableEq

/-- The fields of the process-wide `G_io_app` structure used by the engine:
`apdu_state`, `apdu_media` and `apdu_length`.  `IO_APDU_MEDIA_NONE` is
modelled as media value `0`. -/
structure SysApp where
  apdu_state : ApduState
  apdu_media : Nat
  apdu_length : Nat
  deriving DecidableEq

/-- The engine state: the `Comm` object, the `G_io_app` fields, and the
trace of frames handed to the active transport for sending. -/
structure EngineState where
  comm : Comm
  sys : SysApp
  sent : List (List Nat)

instance : Inhabited EngineState :=
  ⟨{ comm := Comm.new, sys := ⟨ApduState.idle, 0, 0⟩, sent := [] }⟩

/-- `Comm::apdu_send` (io.rs lines 164-204).  The seph status handshake and
the event-drain loop at the top are external collaborator traffic (spec: "an
opaque synchronous channel") and have no modelled effect.  When the transport
state is active, the first `tx` buffer bytes are handed to the transport
(taking that slice panics if `tx` exceeds the capacity); in every case `tx`
and `rx` are then zeroed and `G_io_app` is reset to idle. -/
def apdu_send (s : EngineState) : Option EngineState :=
  let reset := fun (sentList : List (List Nat)) =>
    { comm := { s.comm with tx := 0, rx := 0 },
      sys := { apdu_state := ApduState.idle, apdu_media := 0, apdu_length := 0 },
      sent := sentList }
  match s.sys.apdu_state with
  | ApduState.idle => some (reset s.sent)
  | _ =>
    if s.comm.tx ≤ BUF_CAP then
      some (reset (s.sent ++ [sliceF s.comm.apdu_buffer 0 s.comm.tx]))
    else none

/-- The status-word encoding step of `Comm::reply` (io.rs lines 449-453):
write the high and low bytes of the status word at `tx` and `tx + 1` and
advance `tx` by 2. -/
def reply_encode (s : EngineState) (r : Reply) : Option EngineState := do
  let b1 ← bufWrite s.comm.apdu_buffer s.comm.tx (r.val / 256)
  let b2 ← bufWrite b1 (s.comm.tx + 1) (r.val % 256)
  some { s with comm := { s.comm with apdu_buffer := b2, tx := s.comm.tx + 2 } }

/-- `Comm::reply` (io.rs lines 448-456): encode the status word, then
transmit via `apdu_send`. -/
def reply (s : EngineState) (r : Reply) : Option EngineState :=
  (reply_encode s r).bind apdu_send

/-- `Comm::reply_ok` (io.rs lines 460-462). -/
def reply_ok (s : EngineState) : Option EngineState :=
  reply s (Reply.fromStatus StatusWords.ok)

/-- `Comm::append` (io.rs lines 500-505): byte-by-byte checked write at `tx`,
advancing `tx` after each write. -/
def Comm.append (c : Comm) : List Nat → Option Comm
  | [] => some c
  | b :: rest =>
    (bufWrite c.apdu_buffer c.tx b).bind fun f =>
      Comm.append { c with apdu_buffer := f, tx := c.tx + 1 } rest

/-- `impl Index<usize> for Comm` (io.rs lines 508-513): a read through the
index returns byte `i` of the buffer (panicking when out of range) and does
not modify the state (the Rust implementation takes `&self`). -/
def comm_index (c : Comm) (i : Nat) : Option Nat :=
  if i < BUF_CAP then some (c.apdu_buffer i) else none

/-- `impl IndexMut<usize> for Comm` (io.rs lines 515-520): `tx` is first set
to `idx.max(tx)`, then the buffer cell is borrowed (panicking when out of
range) and the write lands in it. -/
def comm_index_mut (c : Comm) (i v : Nat) : Option Comm :=
  let c1 := { c with tx := max i c.tx }
  (bufWrite c1.apdu_buffer i v).map fun f => { c1 with apdu_buffer := f }

/-- The state initialisation at the top of `Comm::next_event` (io.rs lines
249-253): `G_io_app` is reset to idle; nothing else is touched. -/
def next_event_init (s : EngineState) : EngineState :=
  { s with sys := { apdu_state := ApduState.idle, apdu_media := 0, apdu_length := 0 } }

lemma updateF_self (f : Nat → Nat) (i v : Nat) : updateF f i v i = v := by
  simp [updateF]

lemma updateF_other (f : Nat → Nat) (i v j : Nat) (h : j ≠ i) :
    updateF f i v j = f j := by
  simp [updateF, h]

/-- Explicit form of `reply_encode` when the two writes are in range. -/
lemma reply_encode_eq (s : EngineState) (r : Reply) (h : s.comm.tx + 2 ≤ BUF_CAP) :
    reply_encode s r = some { s with comm := { s.comm with
      apdu_buffer := updateF (updateF s.comm.apdu_buffer s.comm.tx (r.val / 256))
        (s.comm.tx + 1) (r.val % 256),
      tx := s.comm.tx + 2 } } := by
  have hB : BUF_CAP = 260 := rfl
  have h1 : s.comm.tx < BUF_CAP := by omega
  have h2 : s.comm.tx + 1 < BUF_CAP := by omega
  simp [reply_encode, bufWrite, h1, h2]

/-- Explicit form of `apdu_send` on an active transport state. -/
lemma apdu_send_eq (s : EngineState) (hst : s.sys.apdu_state ≠ ApduState.idle)
    (htx : s.comm.tx ≤ BUF_CAP) :
    apdu_send s = some { comm := { s.comm with tx := 0, rx := 0 },
                         sys := ⟨ApduState.idle, 0, 0⟩,
                         sent := s.sent ++ [sliceF s.comm.apdu_buffer 0 s.comm.tx] } := by
  rcases hA : s.sys.apdu_state <;> simp_all [apdu_send]

/-- `apdu_send` always zeroes both cursors and idles the transport state. -/
lemma apdu_send_resets (s t : EngineState) (h : apdu_send s = some t) :
    t.comm.tx = 0 ∧ t.comm.rx = 0 ∧ t.sys = ⟨ApduState.idle, 0, 0⟩ := by
  unfold apdu_send at h
  split at h
  · cases h
    exact ⟨rfl, rfl, rfl⟩
  · split at h
    · cases h
      exact ⟨rfl, rfl, rfl⟩
    · cases h

/-- `reply` always zeroes both cursors and idles the transport state. -/
lemma reply_resets (s t : EngineState) (r : Reply) (h : reply s r = some t) :
    t.comm.tx = 0 ∧ t.comm.rx = 0 ∧ t.sys = ⟨ApduState.idle, 0, 0⟩ := by
  unfold reply at h
  cases he : reply_encode s r with
  | none => rw [he] at h; cases h
  | some u =>
    rw [he] at h
    exact apdu_send_resets u t h

/-- C6: on a state with `tx = 0`, `reply(StatusWords::Ok)` writes `0x90` and
`0x00` at buffer offsets 0 and 1 (big-endian status word at the transmit
cursor) and advances `tx` to 2 at the hand-off to transmission; the
transmitted frame is exactly those two bytes. -/
theorem reply_ok_writes_sw (s : EngineState) (h : s.comm.tx = 0) :
    (reply_encode s (Reply.fromStatus StatusWords.ok)).map
        (fun t => (t.comm.apdu_buffer 0, t.comm.apdu_buffer 1, t.comm.tx))
      = some (0x90, 0x00, 2) ∧
    (s.sys.apdu_state ≠ ApduState.idle →
      (reply s (Reply.fromStatus StatusWords.ok)).map (fun t => t.sent)
        = some (s.sent ++ [[0x90, 0x00]])) := by
  have he := reply_encode_eq s (Reply.fromStatus StatusWords.ok) (by rw [h]; decide)
  constructor
  · rw [he]
    simp [h, updateF, Reply.fromStatus, StatusWords.code]
  · intro hst
    rw [reply, he, Option.some_bind, apdu_send_eq]
    · rw [h]
      simp [Reply.fromStatus, StatusWords.code, sliceF, updateF, List.range_succ]
    · exact hst
    · rw [h]
      show 0 + 2 ≤ BUF_CAP
      decide

/-- A state that has just received a command over USB-HID, with `tx = 0`. -/
def c6Engine : EngineState :=
  { comm := { Comm.new with
              apdu_buffer := writeBytesF (fun _ => 0) 0 [0xE0, 0x02, 0x00, 0x00],
              rx := 4 },
    sys := ⟨ApduState.usbHid, 1, 4⟩, sent := [] }

theorem reply_ok_writes_sw_witness :
    (reply_encode c6Engine (Reply.fromStatus StatusWords.ok)).map
        (fun t => (t.comm.apdu_buffer 0, t.comm.apdu_buffer 1, t.comm.tx))
      = some (0x90, 0x00, 2) ∧
    (c6Engine.sys.apdu_state ≠ ApduState.idle →
      (reply c6Engine (Reply.fromStatus StatusWords.ok)).map (fun t => t.sent)
        = some (c6Engine.sent ++ [[0x90, 0x00]])) :=
  reply_ok_writes_sw c6Engine (by decide)

/-- C7 (amended): after every `reply` both cursors are zero and the transport
state is reset to idle; the initialisation at the start of a receive cycle
(`next_event`, lines 249-253) resets the transport state to idle but does not
modify the `Comm` state — in particular it leaves `rx` and `tx` unchanged. -/
theorem reply_resets_cursors_and_cycle_keeps_them :
    (∀ (s t : EngineState) (r : Reply), reply s r = some t →
      t.comm.rx = 0 ∧ t.comm.tx = 0 ∧ t.sys.apdu_state = ApduState.idle ∧
        t.sys.apdu_media = 0 ∧ t.sys.apdu_length = 0) ∧
    (∀ s : EngineState, (next_event_init s).comm = s.comm ∧
      (next_event_init s).sys = ⟨ApduState.idle, 0, 0⟩) := by
  constructor
  · intro s t r h
    obtain ⟨h1, h2, h3⟩ := reply_resets s t r h
    exact ⟨h2, h1, by rw [h3], by rw [h3], by rw [h3]⟩
  · intro s
    exact ⟨rfl, rfl⟩

/-- A mid-session state whose cursors are non-zero. -/
def c7Engine : EngineState :=
  { comm := { Comm.new with rx := 5, tx := 3 }, sys := ⟨ApduState.usbHid, 1, 5⟩, sent := [] }

/-- C7 counterexample: the start-of-receive-cycle initialisation does not
reset `rx` and `tx` to zero — on a state with `rx = 5`, `tx = 3` they keep
those values, refuting "rx and tx are reset to zero at the start of every
receive cycle". -/
theorem next_event_init_keeps_cursors :
    (next_event_init c7Engine).comm.rx = 5 ∧ (next_event_init c7Engine).comm.tx = 3 ∧
      ¬ ((next_event_init c7Engine).comm.rx = 0 ∧ (next_event_init c7Engine).comm.tx = 0) := by
  refine ⟨rfl, rfl, ?_⟩
  intro h
  exact absurd h.1 (by decide)

/-- The state produced by replying Ok from `c7Engine`. -/
def c7After : EngineState :=
  (reply c7Engine (Reply.fromStatus StatusWords.ok)).getD default

theorem reply_resets_cursors_witness :
    c7After.comm.rx = 0 ∧ c7After.comm.tx = 0 ∧ c7After.sys.apdu_state = ApduState.idle ∧
      c7After.sys.apdu_media = 0 ∧ c7After.sys.apdu_length = 0 :=
  reply_resets_cursors_and_cycle_keeps_them.1 c7Engine c7After
    (Reply.fromStatus StatusWords.ok) rfl

/-- C9: for `i < 260`, the indexed read returns byte `i` of the buffer (and,
being a `&self` method, modifies nothing); the indexed write stores `v` at
index `i`, sets `tx` to `max tx i`, and leaves `rx` and every other buffer
byte unchanged. -/
theorem comm_index_spec (c : Comm) (i v : Nat) (h : i < BUF_CAP) :
    comm_index c i = some (c.apdu_buffer i) ∧
    (comm_index_mut c i v).map (fun t => t.rx) = some c.rx ∧
    (comm_index_mut c i v).map (fun t => t.tx) = some (max c.tx i) ∧
    (comm_index_mut c i v).map (fun t => t.apdu_buffer i) = some v ∧
    (∀ j, j ≠ i → (comm_index_mut c i v).map (fun t => t.apdu_buffer j)
        = some (c.apdu_buffer j)) := by
  refine ⟨by simp [comm_index, h], ?_, ?_, ?_, ?_⟩
  · simp [comm_index_mut, bufWrite, h]
  · simp [comm_index_mut, bufWrite, h, Nat.max_comm]
  · simp [comm_index_mut, bufWrite, h, updateF]
  · intro j hj
    simp [comm_index_mut, bufWrite, h, updateF, hj]

theorem comm_index_spec_witness :
    comm_index Comm.new 3 = some (Comm.new.apdu_buffer 3) ∧
    (comm_index_mut Comm.new 3 7).map (fun t => t.rx) = some Comm.new.rx ∧
    (comm_index_mut Comm.new 3 7).map (fun t => t.tx) = some (max Comm.new.tx 3) ∧
    (comm_index_mut Comm.new 3 7).map (fun t => t.apdu_buffer 3) = some 7 ∧
    (∀ j, j ≠ 3 → (comm_index_mut Comm.new 3 7).map (fun t => t.apdu_buffer j)
        = some (Comm.new.apdu_buffer j)) :=
  comm_index_spec Comm.new 3 7 (by decide)

/-- Possible outcomes of one `decode_event` call: either the `Option Event`
value it returns, or termination of the application (the INS `0xA7` arm calls
`exit_app`, which never returns). -/
inductive DecodeOutcome (T : Type) where
  | ret (e : Option (Event T))
  | exited (code : Nat)

/-- The shape of a `DecodeOutcome`, with the command payload erased. -/
inductive OutKind where
  | retNone
  | retCommand
  | retButton
  | retTicker
  | exited
  deriving DecidableEq

def DecodeOutcome.kind {T : Type} : DecodeOutcome T → OutKind
  | .ret none => OutKind.retNone
  | .ret (some (Event.command _)) => OutKind.retCommand
  | .ret (some (Event.button _)) => OutKind.retButton
  | .ret (some Event.ticker) => OutKind.retTicker
  | .exited _ => OutKind.exited

/-- Observable part of a `decode_event` result: the frames sent, the final
cursors, and the outcome shape. -/
def obs {T : Type} (r : Option (EngineState × DecodeOutcome T)) :
    Option (List (List Nat) × Nat × Nat × OutKind) :=
  r.map fun p => (p.1.sent, p.1.comm.rx, p.1.comm.tx, p.2.kind)

/-- Whether `get_data` accepts the current state. -/
def dataOk (c : Comm) : Bool :=
  match get_data c with
  | some (Except.ok _) => true
  | _ => false

/-- The assignment `self.rx = G_io_app.apdu_length as usize` (io.rs line
320).  Note that the signalled length is not checked against the buffer
capacity here. -/
def setRx (s : EngineState) : EngineState :=
  { s with comm := { s.comm with rx := s.sys.apdu_length } }

/-- The guard `i < 260` implied by forming `&mut self.apdu_buffer[i]` (a
panicking index into the fixed array). -/
def checkIdx (i : Nat) : Option Unit :=
  if i < BUF_CAP then some () else none

/-- The CLA `0xB0` / INS `0x01` arm (io.rs lines 338-360).

Modelled from the spec: `os_registry_get_current_app_tag` is an external
BOLOS syscall; per the specification it writes "the device's registered
application name" (resp. "the application's version") at the given buffer
position, truncated to the given capacity, and returns the written length.
The registered name and version are the parameters `appName`/`appVersion`.
The marker byte `0x01` is stored at offset 0, `tx` is incremented, each field
is written after a placeholder for its length byte, the length byte (cast
`as u8`) is stored at the old cursor and the cursor advances by `1 + len`. -/
def sys_app_info (appName appVersion : List Nat) (s : EngineState) :
    Option EngineState := do
  let b0 ← bufWrite s.comm.apdu_buffer 0 0x01
  let tx1 := s.comm.tx + 1
  let _ ← checkIdx (tx1 + 1)
  let name := appName.take (BUF_CAP - tx1 - 1)
  let b1 ← bufWrite (writeBytesF b0 (tx1 + 1) name) tx1 (name.length % 256)
  let tx2 := tx1 + 1 + name.length
  let _ ← checkIdx (tx2 + 1)
  let vers := appVersion.take (BUF_CAP - tx2 - 1)
  let b2 ← bufWrite (writeBytesF b1 (tx2 + 1) vers) tx2 (vers.length % 256)
  some { s with comm := { s.comm with apdu_buffer := b2, tx := tx2 + 1 + vers.length } }

/-- The `match apdu_header.ins` of the built-in system-command handler
(io.rs lines 337-369): INS `0x01` builds the app name/version response and
replies Ok; INS `0xA7` replies Ok and exits the application; any other INS
replies BadIns.  None of the arms surfaces an event. -/
def handle_sys_ins {T : Type} (appName appVersion : List Nat) (s : EngineState)
    (ins : Nat) : Option (EngineState × DecodeOutcome T) :=
  if ins = 0x01 then
    (sys_app_info appName appVersion s).bind fun t =>
      (reply t (Reply.fromStatus StatusWords.ok)).map fun u => (u, DecodeOutcome.ret none)
  else if ins = 0xa7 then
    (reply s (Reply.fromStatus StatusWords.ok)).map fun t => (t, DecodeOutcome.exited 0)
  else
    (reply s (Reply.fromStatus StatusWords.badIns)).map fun t => (t, DecodeOutcome.ret none)

/-- The application decoder dispatch (io.rs lines 380-391): `T::try_from` on
the header either yields a command event, or its error is converted to a
`Reply`, sent automatically, and the event is discarded. -/
def try_decoder {T : Type} (dec : ApduHeader → Except Reply T) (s : EngineState) :
    Option (EngineState × DecodeOutcome T) :=
  match dec (get_apdu_metadata s.comm) with
  | Except.ok ins => some (s, DecodeOutcome.ret (some (Event.command ins)))
  | Except.error sw => (reply s sw).map fun t => (t, DecodeOutcome.ret none)

/-- The CLA filter (io.rs lines 372-378) followed by the decoder dispatch:
when `expected_cla` is set and the first buffer byte differs, BadCla is sent
and the event is discarded; otherwise the decoder runs. -/
def apply_cla_filter {T : Type} (dec : ApduHeader → Except Reply T) (s : EngineState) :
    Option (EngineState × DecodeOutcome T) :=
  match s.comm.expected_cla with
  | some cla =>
    if s.comm.apdu_buffer 0 ≠ cla then
      (reply s (Reply.fromStatus StatusWords.badCla)).map fun t => (t, DecodeOutcome.ret none)
    else try_decoder dec s
  | none => try_decoder dec s

/-- The command-processing stage of `Comm::decode_event` (io.rs lines
319-393): when the transport has signalled a complete command
(`apdu_state != APDU_IDLE && apdu_length > 0`), set `rx` from the signalled
length, reject `rx < 4` with BadLen, validate the length field with
`get_data`, run the built-in system-command handler for CLA `0xB0` with
P1 = P2 = 0, then the CLA filter, then the application decoder.  When no
complete command is pending the call returns `None` (line 393). -/
def decode_event_body {T : Type} (appName appVersion : List Nat)
    (dec : ApduHeader → Except Reply T) (s : EngineState) :
    Option (EngineState × DecodeOutcome T) :=
  if s.sys.apdu_state ≠ ApduState.idle ∧ s.sys.apdu_length > 0 then
    if (setRx s).comm.rx < 4 then
      (reply (setRx s) (Reply.fromStatus StatusWords.badLen)).map
        fun t => (t, DecodeOutcome.ret none)
    else
      match get_data (setRx s).comm with
      | none => none
      | some (Except.error sw) =>
        (reply (setRx s) (Reply.fromStatus sw)).map fun t => (t, DecodeOutcome.ret none)
      | some (Except.ok _) =>
        if (get_apdu_metadata (setRx s).comm).cla = 0xB0 ∧
            (get_apdu_metadata (setRx s).comm).p1 = 0x00 ∧
            (get_apdu_metadata (setRx s).comm).p2 = 0x00 then
          handle_sys_ins appName appVersion (setRx s) (get_apdu_metadata (setRx s).comm).ins
        else apply_cla_filter dec (setRx s)
  else some (s, DecodeOutcome.ret none)

/-- One received transport packet, after tag decoding (`seph::Events::from`).
The tag byte values live in the external `seph` module; the recognized
shapes follow the spec's packet taxonomy.  USB housekeeping and BLE packets
only drive external collaborator state and are grouped under `other`. -/
inductive Packet where
  | buttonPush (sample : Nat)
  | capdu (payload : List Nat)
  | ticker
  | other

/-- Modelled from the spec: `seph::handle_capdu_event` — the transport
collaborator for the APDU-delivered tag "copies payload bytes into the
shared buffer and updates the command-ready / total-length signal".  The
ready signal is modelled by an active transport state and the signalled
length is the payload length. -/
def handle_capdu_event (s : EngineState) (payload : List Nat) : EngineState :=
  { s with comm := { s.comm with apdu_buffer := writeBytesF s.comm.apdu_buffer 0 payload },
           sys := { apdu_state := ApduState.raw, apdu_media := 1,
                    apdu_length := payload.length } }

/-- `Comm::decode_event` (io.rs lines 271-394): tag dispatch followed by the
command-processing stage.  The button decoder (`get_button_event`) is an
external black-box edge decoder, abstracted as the parameter `btn` mapping
the previous button state and the sample `spi_buffer[3] >> 1` to the new
state and an optional event.  A button event or a ticker packet returns
immediately; every other packet falls through to the command stage. -/
def decode_event {T : Type} (appName appVersion : List Nat)
    (btn : Nat → Nat → Nat × Option Nat) (dec : ApduHeader → Except Reply T)
    (s : EngineState) (p : Packet) : Option (EngineState × DecodeOutcome T) :=
  match p with
  | Packet.buttonPush sample =>
    let r := btn s.comm.buttons (sample / 2)
    let s2 := { s with comm := { s.comm with buttons := r.1 } }
    match r.2 with
    | some ev => some (s2, DecodeOutcome.ret (some (Event.button ev)))
    | none => decode_event_body appName appVersion dec s2
  | Packet.ticker => some (s, DecodeOutcome.ret (some Event.ticker))
  | Packet.capdu payload =>
    decode_event_body appName appVersion dec (handle_capdu_event s payload)
  | Packet.other => decode_event_body appName appVersion dec s

lemma writeBytesF_out_lt (l : List Nat) (f : Nat → Nat) (off j : Nat) (h : j < off) :
    writeBytesF f off l j = f j := by
  induction l generalizing f off with
  | nil => rfl
  | cons b rest ih =>
    rw [writeBytesF, ih _ _ (by omega), updateF_other _ _ _ _ (by omega)]

lemma writeBytesF_out_ge (l : List Nat) (f : Nat → Nat) (off j : Nat)
    (h : off + l.length ≤ j) : writeBytesF f off l j = f j := by
  induction l generalizing f off with
  | nil => rfl
  | cons b rest ih =>
    rw [writeBytesF, ih _ _ (by simp at h; omega),
      updateF_other _ _ _ _ (by simp at h; omega)]

lemma writeBytesF_in (l : List Nat) (f : Nat → Nat) (off i : Nat) (h : i < l.length) :
    writeBytesF f off l (off + i) = l.getD i 0 := by
  induction l generalizing f off i with
  | nil => simp at h
  | cons b rest ih =>
    cases i with
    | zero =>
      rw [writeBytesF, writeBytesF_out_lt _ _ _ _ (by omega)]
      simp [updateF]
    | succ i =>
      rw [writeBytesF, show off + (i + 1) = (off + 1) + i from by omega,
        ih _ _ _ (by simp at h; omega)]
      rfl

lemma sliceF_zero (f : Nat → Nat) (off : Nat) : sliceF f off 0 = [] := rfl

lemma sliceF_succ (f : Nat → Nat) (off n : Nat) :
    sliceF f off (n + 1) = sliceF f off n ++ [f (off + n)] := by
  simp [sliceF, List.range_succ]

lemma sliceF_cons (f : Nat → Nat) (off n : Nat) :
    sliceF f off (n + 1) = f off :: sliceF f (off + 1) n := by
  simp only [sliceF, List.range_succ_eq_map, List.map_cons, List.map_map]
  congr 1
  refine List.map_congr_left fun i _ => ?_
  simp only [Function.comp_apply]
  congr 1
  omega

lemma sliceF_congr (f g : Nat → Nat) (off n : Nat)
    (h : ∀ i, i < n → f (off + i) = g (off + i)) : sliceF f off n = sliceF g off n := by
  induction n with
  | zero => rfl
  | succ n ih =>
    rw [sliceF_succ, sliceF_succ, ih (fun i hi => h i (by omega)), h n (by omega)]

lemma sliceF_append (f : Nat → Nat) (off a b : Nat) :
    sliceF f off (a + b) = sliceF f off a ++ sliceF f (off + a) b := by
  induction b with
  | zero => simp [sliceF_zero]
  | succ b ih =>
    rw [show a + (b + 1) = (a + b) + 1 from rfl, sliceF_succ, sliceF_succ, ih,
      List.append_assoc, show off + (a + b) = off + a + b from by omega]

lemma sliceF_eq_of_getD (l : List Nat) (f : Nat → Nat) (off : Nat)
    (h : ∀ i, i < l.length → f (off + i) = l.getD i 0) : sliceF f off l.length = l := by
  induction l generalizing off with
  | nil => rfl
  | cons b rest ih =>
    rw [List.length_cons, sliceF_cons]
    have h0 := h 0 (by simp)
    simp only [Nat.add_zero, List.getD] at h0
    rw [h0]
    congr 1
    exact ih (off + 1) (fun i hi => by
      rw [show off + 1 + i = off + (i + 1) from by omega, h (i + 1) (by simp; omega)]
      rfl)

/-- The transmitted frame of a status-word write at cursor `tx`: the first
`tx` bytes already in the buffer followed by the two status bytes. -/
lemma sliceF_write_sw (f : Nat → Nat) (tx a b : Nat) :
    sliceF (updateF (updateF f tx a) (tx + 1) b) 0 (tx + 2)
      = sliceF f 0 tx ++ [a, b] := by
  rw [show tx + 2 = (tx + 1) + 1 from rfl, sliceF_succ, sliceF_succ]
  rw [show (0 : Nat) + (tx + 1) = tx + 1 from by omega, updateF_self]
  rw [show (0 : Nat) + tx = tx from by omega, updateF_other _ _ _ _ (by omega), updateF_self]
  rw [sliceF_congr (updateF (updateF f tx a) (tx + 1) b) f 0 tx (fun i hi => by
    rw [updateF_other _ _ _ _ (by omega), updateF_other _ _ _ _ (by omega)])]
  simp

/-- Observable effect of the auto-reply pattern
`(reply s r).map (fun t => (t, o))` used throughout `decode_event`. -/
lemma obs_reply {T : Type} (s : EngineState) (r : Reply) (o : DecodeOutcome T)
    (hst : s.sys.apdu_state ≠ ApduState.idle) (htx : s.comm.tx + 2 ≤ BUF_CAP) :
    obs ((reply s r).map fun t => (t, o))
      = some (s.sent ++ [sliceF s.comm.apdu_buffer 0 s.comm.tx
            ++ [r.val / 256, r.val % 256]], 0, 0, o.kind) := by
  rw [reply, reply_encode_eq s r htx, Option.some_bind, apdu_send_eq]
  · simp [obs, sliceF_write_sw]
  · exact hst
  · exact htx

/-- C4: whenever the transport signals a complete command of length between
1 and 3, `decode_event` replies BadLen (`0x6e03`) and surfaces nothing: the
result does not depend on the buffer contents (no header parsing), on the
configured `expected_cla`, or on the application decoder `dec`. -/
theorem decode_short_apdu {T : Type} (appName appVersion : List Nat)
    (dec : ApduHeader → Except Reply T) (s : EngineState)
    (hst : s.sys.apdu_state ≠ ApduState.idle) (h0 : 0 < s.sys.apdu_length)
    (h4 : s.sys.apdu_length < 4) (htx : s.comm.tx + 2 ≤ BUF_CAP) :
    obs (decode_event_body appName appVersion dec s)
      = some (s.sent ++ [sliceF s.comm.apdu_buffer 0 s.comm.tx ++ [0x6e, 0x03]],
              0, 0, OutKind.retNone) := by
  unfold decode_event_body
  rw [if_pos ⟨hst, h0⟩, if_pos (show (setRx s).comm.rx < 4 from h4)]
  exact obs_reply (setRx s) (Reply.fromStatus StatusWords.badLen)
    (DecodeOutcome.ret none) hst htx

lemma setRx_rx (s : EngineState) : (setRx s).comm.rx = s.sys.apdu_length := rfl

lemma setRx_tx (s : EngineState) : (setRx s).comm.tx = s.comm.tx := rfl

lemma setRx_buffer (s : EngineState) : (setRx s).comm.apdu_buffer = s.comm.apdu_buffer := rfl

lemma setRx_cla (s : EngineState) : (setRx s).comm.expected_cla = s.comm.expected_cla := rfl

lemma setRx_sys (s : EngineState) : (setRx s).sys = s.sys := rfl

lemma setRx_sent (s : EngineState) : (setRx s).sent = s.sent := rfl

/-- A decoder that accepts every header (with a trivial command type). -/
def decUnit : ApduHeader → Except Reply Unit := fun _ => Except.ok ()

/-- A button decoder model that never reports an event. -/
def btnNone : Nat → Nat → Nat × Option Nat := fun st _ => (st, none)

/-- A transport-idle engine with `tx = 0` and a pending 2-byte signal. -/
def c4Engine : EngineState :=
  { comm := Comm.new, sys := ⟨ApduState.usbHid, 1, 2⟩, sent := [] }

theorem decode_short_apdu_witness :
    obs (decode_event_body [] [] decUnit c4Engine)
      = some (c4Engine.sent ++ [sliceF c4Engine.comm.apdu_buffer 0 c4Engine.comm.tx
            ++ [0x6e, 0x03]], 0, 0, OutKind.retNone) :=
  decode_short_apdu [] [] decUnit c4Engine (by decide) (by decide) (by decide) (by decide)

/-- Common reduction: on a complete command with a valid length field, the
command stage reduces to the system-handler test. -/
lemma decode_body_reaches_dispatch {T : Type} (appName appVersion : List Nat)
    (dec : ApduHeader → Except Reply T) (s : EngineState)
    (hst : s.sys.apdu_state ≠ ApduState.idle) (hlen : 4 ≤ s.sys.apdu_length)
    (hgd : dataOk (setRx s).comm = true) :
    decode_event_body appName appVersion dec s
      = if (get_apdu_metadata (setRx s).comm).cla = 0xB0 ∧
            (get_apdu_metadata (setRx s).comm).p1 = 0x00 ∧
            (get_apdu_metadata (setRx s).comm).p2 = 0x00 then
          handle_sys_ins appName appVersion (setRx s) (get_apdu_metadata (setRx s).comm).ins
        else apply_cla_filter dec (setRx s) := by
  unfold decode_event_body
  rw [if_pos ⟨hst, by omega⟩,
    if_neg (show ¬ (setRx s).comm.rx < 4 from by rw [setRx_rx]; omega)]
  unfold dataOk at hgd
  cases hd : get_data (setRx s).comm with
  | none => rw [hd] at hgd; cases hgd
  | some r =>
    cases r with
    | error sw => rw [hd] at hgd; cases hgd
    | ok d => simp only [hd]

/-- C3 (amended): for a complete command with a valid length field (the
`get_data` check passes — the possibility of a prior BadLen reply is what the
counterexample exhibits) that is not intercepted by the system-command
handler: with `expected_cla = Some cla` and a differing CLA byte the engine
replies `0x6e00` and surfaces nothing, independently of the decoder `dec`;
with `expected_cla = None` the header always reaches the decoder, whose
verdict alone decides between a surfaced command and an auto-replied error. -/
theorem cla_filter_spec {T : Type} (appName appVersion : List Nat)
    (dec : ApduHeader → Except Reply T) (s : EngineState)
    (hst : s.sys.apdu_state ≠ ApduState.idle) (hlen : 4 ≤ s.sys.apdu_length)
    (hgd : dataOk (setRx s).comm = true)
    (hnotsys : ¬(s.comm.apdu_buffer 0 = 0xB0 ∧ s.comm.apdu_buffer 2 = 0x00 ∧
        s.comm.apdu_buffer 3 = 0x00))
    (htx : s.comm.tx + 2 ≤ BUF_CAP) :
    (∀ cla, s.comm.expected_cla = some cla → s.comm.apdu_buffer 0 ≠ cla →
      obs (decode_event_body appName appVersion dec s)
        = some (s.sent ++ [sliceF s.comm.apdu_buffer 0 s.comm.tx ++ [0x6e, 0x00]],
                0, 0, OutKind.retNone)) ∧
    (s.comm.expected_cla = none →
      (∀ t, dec (get_apdu_metadata s.comm) = Except.ok t →
        decode_event_body appName appVersion dec s
          = some (setRx s, DecodeOutcome.ret (some (Event.command t)))) ∧
      (∀ r, dec (get_apdu_metadata s.comm) = Except.error r →
        obs (decode_event_body appName appVersion dec s)
          = some (s.sent ++ [sliceF s.comm.apdu_buffer 0 s.comm.tx
                ++ [r.val / 256, r.val % 256]], 0, 0, OutKind.retNone))) := by
  have hbody := decode_body_reaches_dispatch appName appVersion dec s hst hlen hgd
  rw [if_neg (by simpa [get_apdu_metadata, setRx_buffer] using hnotsys)] at hbody
  constructor
  · intro cla hcla hne
    rw [hbody]
    unfold apply_cla_filter
    rw [setRx_cla, hcla]
    simp only [setRx_buffer]
    rw [if_pos hne]
    exact obs_reply (setRx s) (Reply.fromStatus StatusWords.badCla)
      (DecodeOutcome.ret none) hst htx
  · intro hnone
    constructor
    · intro t hdec
      rw [hbody]
      unfold apply_cla_filter
      rw [setRx_cla, hnone]
      unfold try_decoder
      rw [show get_apdu_metadata (setRx s).comm = get_apdu_metadata s.comm from rfl, hdec]
    · intro r hdec
      rw [hbody]
      unfold apply_cla_filter
      rw [setRx_cla, hnone]
      unfold try_decoder
      rw [show get_apdu_metadata (setRx s).comm = get_apdu_metadata s.comm from rfl, hdec]
      exact obs_reply (setRx s) r (DecodeOutcome.ret none) hst htx

/-- A waiting engine configured with `expected_cla = Some 0xE0`. -/
def c3Engine : EngineState :=
  { comm := { Comm.new with expected_cla := some 0xE0 },
    sys := ⟨ApduState.idle, 0, 0⟩, sent := [] }

/-- C3 counterexample: a complete 6-byte command whose CLA byte `0xD0`
differs from the configured `expected_cla = Some 0xE0` is answered with
BadLen `0x6e03` — not BadCla `0x6e00` — because its malformed length field
(byte 4 equal to 0 with `rx = 6`) is rejected before the CLA filter runs. -/
theorem cla_mismatch_not_always_badcla :
    obs (decode_event [] [] btnNone decUnit c3Engine
        (Packet.capdu [0xD0, 0x02, 0x00, 0x00, 0x00, 0x00]))
      = some ([[0x6e, 0x03]], 0, 0, OutKind.retNone) ∧
    ([[0x6e, 0x03]] : List (List Nat)) ≠ [[0x6e, 0x00]] := by
  constructor
  · decide
  · decide

/-- A ready complete command `0xD0 0x02 0x00 0x00` with a valid (empty) data
field, under `expected_cla = Some 0xE0`. -/
def c3Ready : EngineState :=
  { comm := { Comm.new with
              apdu_buffer := writeBytesF (fun _ => 0) 0 [0xD0, 0x02, 0x00, 0x00],
              expected_cla := some 0xE0 },
    sys := ⟨ApduState.usbHid, 1, 4⟩, sent := [] }

theorem cla_filter_spec_witness :
    obs (decode_event_body [] [] decUnit c3Ready)
      = some (c3Ready.sent ++ [sliceF c3Ready.comm.apdu_buffer 0 c3Ready.comm.tx
            ++ [0x6e, 0x00]], 0, 0, OutKind.retNone) :=
  (cla_filter_spec [] [] decUnit c3Ready (by decide) (by decide) (by decide)
    (by decide) (by decide)).1 0xE0 (by decide) (by decide)

/-- Explicit form of the INS `0x01` response construction from a fresh
transmit cursor, for a name and version that fit the buffer. -/
lemma sys_app_info_eq (nm vr : List Nat) (s : EngineState) (htx : s.comm.tx = 0)
    (hb : nm.length + vr.length ≤ 200) :
    sys_app_info nm vr s = some { s with comm := { s.comm with
      apdu_buffer := updateF (writeBytesF (updateF (writeBytesF
          (updateF s.comm.apdu_buffer 0 0x01) 2 nm) 1 (nm.length % 256))
          (3 + nm.length) vr) (2 + nm.length) (vr.length % 256),
      tx := 3 + nm.length + vr.length } } := by
  unfold sys_app_info checkIdx bufWrite
  rw [htx]
  norm_num [show (BUF_CAP : Nat) = 260 from rfl]
  rw [Nat.min_eq_right (show nm.length ≤ 258 from by omega)]
  rw [List.take_of_length_le (show nm.length ≤ 258 from by omega)]
  rw [show 2 + nm.length + 1 = 3 + nm.length from by omega]
  have hvr : vr.length ≤ 260 - (2 + nm.length) - 1 := by omega
  rw [List.take_of_length_le hvr]
  rw [Nat.min_eq_right hvr]
  split_ifs with h1 h2
  · simp only [Option.some_bind]
  · exfalso; omega
  · exfalso; omega
  · exfalso; omega

lemma sliceF_one (f : Nat → Nat) (off : Nat) : sliceF f off 1 = [f off] := rfl

lemma sliceF_two (f : Nat → Nat) (off : Nat) : sliceF f off 2 = [f off, f (off + 1)] := rfl

/-- The first `3 + |name| + |version|` buffer bytes after the INS `0x01`
handler ran from a fresh cursor: marker, length-prefixed name,
length-prefixed version. -/
lemma sys_frame (nm vr : List Nat) (buf : Nat → Nat) (hb : nm.length + vr.length ≤ 200) :
    sliceF (updateF (writeBytesF (updateF (writeBytesF
        (updateF buf 0 0x01) 2 nm) 1 (nm.length % 256))
        (3 + nm.length) vr) (2 + nm.length) (vr.length % 256)) 0 (3 + nm.length + vr.length)
      = [0x01, nm.length] ++ nm ++ [vr.length] ++ vr := by
  have hn : nm.length % 256 = nm.length := Nat.mod_eq_of_lt (by omega)
  have hv : vr.length % 256 = vr.length := Nat.mod_eq_of_lt (by omega)
  rw [hn, hv]
  set B := updateF (writeBytesF (updateF (writeBytesF
      (updateF buf 0 0x01) 2 nm) 1 nm.length)
      (3 + nm.length) vr) (2 + nm.length) vr.length with hB
  have hB0 : B 0 = 0x01 := by
    rw [hB, updateF_other _ _ _ _ (by omega), writeBytesF_out_lt _ _ _ _ (by omega),
      updateF_other _ _ _ _ (by omega), writeBytesF_out_lt _ _ _ _ (by omega), updateF_self]
  have hB1 : B 1 = nm.length := by
    rw [hB, updateF_other _ _ _ _ (by omega), writeBytesF_out_lt _ _ _ _ (by omega),
      updateF_self]
  have hBn : ∀ i, i < nm.length → B (2 + i) = nm.getD i 0 := by
    intro i hi
    rw [hB, updateF_other _ _ _ _ (by omega), writeBytesF_out_lt _ _ _ _ (by omega),
      updateF_other _ _ _ _ (by omega), writeBytesF_in _ _ _ _ hi]
  have hBv : B (2 + nm.length) = vr.length := by
    rw [hB, updateF_self]
  have hBr : ∀ i, i < vr.length → B (3 + nm.length + i) = vr.getD i 0 := by
    intro i hi
    rw [hB, updateF_other _ _ _ _ (by omega), writeBytesF_in _ _ _ _ hi]
  rw [show 3 + nm.length + vr.length = 2 + (nm.length + (1 + vr.length)) from by omega]
  rw [sliceF_append, sliceF_append, sliceF_append]
  rw [show (0 : Nat) + 2 = 2 from rfl]
  rw [sliceF_two, show (0 : Nat) + 1 = 1 from rfl, hB0, hB1]
  rw [sliceF_eq_of_getD nm B 2 hBn]
  rw [sliceF_one, hBv]
  rw [show 2 + nm.length + 1 = 3 + nm.length from by omega]
  rw [sliceF_eq_of_getD vr B (3 + nm.length) hBr]
  simp

/-- C2 (amended): a complete command with a valid length field (the
counterexample shows the BadLen path otherwise taken) whose header is
CLA `0xB0`, P1 = P2 = `0x00` is fully handled by the built-in system-command
handler, independently of `expected_cla` and of the application decoder
`dec` (neither appears in any of the right-hand sides): INS `0x01` replies
with the marker/name/version response terminated by Ok; INS `0xA7` replies
Ok and terminates the application; any other INS replies BadIns.  No case
surfaces an event to the caller. -/
theorem system_handler_spec {T : Type} (appName appVersion : List Nat)
    (dec : ApduHeader → Except Reply T) (s : EngineState)
    (hst : s.sys.apdu_state ≠ ApduState.idle) (hlen : 4 ≤ s.sys.apdu_length)
    (hgd : dataOk (setRx s).comm = true)
    (hcla : s.comm.apdu_buffer 0 = 0xB0) (hp1 : s.comm.apdu_buffer 2 = 0x00)
    (hp2 : s.comm.apdu_buffer 3 = 0x00) (htx : s.comm.tx = 0)
    (hfit : appName.length + appVersion.length ≤ 200) :
    (s.comm.apdu_buffer 1 = 0x01 →
      obs (decode_event_body appName appVersion dec s)
        = some (s.sent ++ [[0x01, appName.length] ++ appName
              ++ [appVersion.length] ++ appVersion ++ [0x90, 0x00]],
            0, 0, OutKind.retNone)) ∧
    (s.comm.apdu_buffer 1 = 0xa7 →
      obs (decode_event_body appName appVersion dec s)
        = some (s.sent ++ [[0x90, 0x00]], 0, 0, OutKind.exited)) ∧
    (s.comm.apdu_buffer 1 ≠ 0x01 → s.comm.apdu_buffer 1 ≠ 0xa7 →
      obs (decode_event_body appName appVersion dec s)
        = some (s.sent ++ [[0x6e, 0x01]], 0, 0, OutKind.retNone)) := by
  have hbody := decode_body_reaches_dispatch appName appVersion dec s hst hlen hgd
  have hc : (get_apdu_metadata (setRx s).comm).cla = 0xB0 ∧
      (get_apdu_metadata (setRx s).comm).p1 = 0x00 ∧
      (get_apdu_metadata (setRx s).comm).p2 = 0x00 := ⟨hcla, hp1, hp2⟩
  rw [if_pos hc] at hbody
  have hins : (get_apdu_metadata (setRx s).comm).ins = s.comm.apdu_buffer 1 := rfl
  rw [hins] at hbody
  refine ⟨?_, ?_, ?_⟩
  · intro h1
    rw [hbody, h1]
    unfold handle_sys_ins
    rw [if_pos rfl,
      sys_app_info_eq appName appVersion (setRx s) (show (setRx s).comm.tx = 0 from htx) hfit,
      Option.some_bind, obs_reply]
    · rw [show (3 : Nat) + appName.length + appVersion.length
            = 3 + appName.length + appVersion.length from rfl]
      rw [sys_frame appName appVersion _ hfit]
      norm_num [Reply.fromStatus, StatusWords.code, DecodeOutcome.kind]
      exact setRx_sent s
    · exact hst
    · show 3 + appName.length + appVersion.length + 2 ≤ BUF_CAP
      have h260 : (BUF_CAP : Nat) = 260 := rfl
      omega
  · intro h7
    rw [hbody, h7]
    unfold handle_sys_ins
    rw [if_neg (by norm_num), if_pos rfl, obs_reply]
    · rw [setRx_sent, show (setRx s).comm.tx = 0 from htx, sliceF_zero]
      norm_num [Reply.fromStatus, StatusWords.code, DecodeOutcome.kind]
    · exact hst
    · show s.comm.tx + 2 ≤ BUF_CAP
      have h260 : (BUF_CAP : Nat) = 260 := rfl
      omega
  · intro h1 h7
    rw [hbody]
    unfold handle_sys_ins
    rw [if_neg h1, if_neg h7, obs_reply]
    · rw [setRx_sent, show (setRx s).comm.tx = 0 from htx, sliceF_zero]
      norm_num [Reply.fromStatus, StatusWords.code, DecodeOutcome.kind]
    · exact hst
    · show s.comm.tx + 2 ≤ BUF_CAP
      have h260 : (BUF_CAP : Nat) = 260 := rfl
      omega

/-- A waiting engine with no CLA filter configured. -/
def c2Engine : EngineState :=
  { comm := Comm.new, sys := ⟨ApduState.idle, 0, 0⟩, sent := [] }

/-- C2 counterexample: a complete 6-byte command with header CLA `0xB0`,
INS `0x01`, P1 = P2 = `0x00` but a malformed length field (byte 4 zero with
`rx = 6`) is answered with BadLen `0x6e03` by the length check that runs
before the system-command handler — not with the Ok-terminated name/version
response the claim promises for INS `0x01`. -/
theorem system_command_not_always_intercepted :
    obs (decode_event [] [] btnNone decUnit c2Engine
        (Packet.capdu [0xB0, 0x01, 0x00, 0x00, 0x00, 0x00]))
      = some ([[0x6e, 0x03]], 0, 0, OutKind.retNone) ∧
    ([[0x6e, 0x03]] : List (List Nat)) ≠ [[0x90, 0x00]] := by
  constructor <;> decide

/-- A ready complete system command `0xB0 0x01 0x00 0x00`. -/
def c2Ready : EngineState :=
  { comm := { Comm.new with
              apdu_buffer := writeBytesF (fun _ => 0) 0 [0xB0, 0x01, 0x00, 0x00] },
    sys := ⟨ApduState.usbHid, 1, 4⟩, sent := [] }

theorem system_handler_spec_witness :
    obs (decode_event_body [0x41] [0x31] decUnit c2Ready)
      = some (c2Ready.sent ++ [[0x01, [0x41].length] ++ [0x41]
            ++ [[0x31].length] ++ [0x31] ++ [0x90, 0x00]], 0, 0, OutKind.retNone) :=
  (system_handler_spec [0x41] [0x31] decUnit c2Ready (by decide) (by decide) (by decide)
    (by decide) (by decide) (by decide) (by decide) (by decide)).1 (by decide)

lemma bufWrite_some {f g : Nat → Nat} {i v : Nat} (h : bufWrite f i v = some g) :
    i < BUF_CAP := by
  unfold bufWrite at h
  split_ifs at h with hc
  exact hc

lemma reply_map_inv {T : Type} {s : EngineState} {r : Reply} {o o2 : DecodeOutcome T}
    {t : EngineState}
    (h : (reply s r).map (fun u => (u, o)) = some (t, o2)) : reply s r = some t := by
  cases hr : reply s r with
  | none => rw [hr] at h; cases h
  | some u =>
    rw [hr] at h
    simp at h
    rw [h.1]

lemma handle_sys_ins_resets {T : Type} (nm vr : List Nat) (s t : EngineState)
    (ins : Nat) (o : DecodeOutcome T)
    (h : handle_sys_ins nm vr s ins = some (t, o)) : t.comm.tx = 0 ∧ t.comm.rx = 0 := by
  unfold handle_sys_ins at h
  split_ifs at h with hi1 hi2
  · cases ha : sys_app_info nm vr s with
    | none => rw [ha] at h; cases h
    | some u =>
      rw [ha, Option.some_bind] at h
      obtain ⟨h1, h2, _⟩ := reply_resets u _ _ (reply_map_inv h)
      exact ⟨h1, h2⟩
  · obtain ⟨h1, h2, _⟩ := reply_resets s _ _ (reply_map_inv h)
    exact ⟨h1, h2⟩
  · obtain ⟨h1, h2, _⟩ := reply_resets s _ _ (reply_map_inv h)
    exact ⟨h1, h2⟩

lemma apply_cla_filter_cases {T : Type} (dec : ApduHeader → Except Reply T)
    (s t : EngineState) (o : DecodeOutcome T)
    (h : apply_cla_filter dec s = some (t, o)) :
    t = s ∨ (t.comm.tx = 0 ∧ t.comm.rx = 0) := by
  unfold apply_cla_filter at h
  split at h
  · split_ifs at h
    · right
      have hr := reply_resets s _ _ (reply_map_inv h)
      exact ⟨hr.1, hr.2.1⟩
    · unfold try_decoder at h
      split at h
      · left
        simp only [Option.some.injEq, Prod.mk.injEq] at h
        exact h.1.symm
      · right
        have hr := reply_resets s _ _ (reply_map_inv h)
        exact ⟨hr.1, hr.2.1⟩
  · unfold try_decoder at h
    split at h
    · left
      simp only [Option.some.injEq, Prod.mk.injEq] at h
      exact h.1.symm
    · right
      have hr := reply_resets s _ _ (reply_map_inv h)
      exact ⟨hr.1, hr.2.1⟩

lemma decode_body_bounds {T : Type} (nm vr : List Nat) (dec : ApduHeader → Except Reply T)
    (s t : EngineState) (o : DecodeOutcome T)
    (hrx : s.comm.rx ≤ BUF_CAP) (htx : s.comm.tx ≤ BUF_CAP)
    (hlen : s.sys.apdu_length ≤ BUF_CAP)
    (h : decode_event_body nm vr dec s = some (t, o)) :
    t.comm.rx ≤ BUF_CAP ∧ t.comm.tx ≤ BUF_CAP := by
  unfold decode_event_body at h
  split_ifs at h with hA hB hC
  · -- complete command shorter than a header: auto BadLen reply
    obtain ⟨h1, h2, _⟩ := reply_resets _ _ _ (reply_map_inv h)
    omega
  · -- valid header, system-command interception
    split at h
    · cases h
    · obtain ⟨h1, h2, _⟩ := reply_resets _ _ _ (reply_map_inv h)
      omega
    · obtain ⟨h1, h2⟩ := handle_sys_ins_resets nm vr _ t _ o h
      omega
  · -- valid header, CLA filter and decoder dispatch
    split at h
    · cases h
    · obtain ⟨h1, h2, _⟩ := reply_resets _ _ _ (reply_map_inv h)
      omega
    · rcases apply_cla_filter_cases dec _ t o h with he | ⟨h1, h2⟩
      · rw [he]
        exact ⟨hlen, htx⟩
      · omega
  · -- no complete command pending
    simp only [Option.some.injEq, Prod.mk.injEq] at h
    rw [← h.1]
    exact ⟨hrx, htx⟩

/-- Whether a packet's payload fits the 260-byte buffer. -/
def packetFits : Packet → Bool
  | Packet.capdu payload => decide (payload.length ≤ BUF_CAP)
  | _ => true

lemma decode_event_bounds {T : Type} (nm vr : List Nat)
    (btn : Nat → Nat → Nat × Option Nat) (dec : ApduHeader → Except Reply T)
    (s t : EngineState) (o : DecodeOutcome T) (p : Packet)
    (hrx : s.comm.rx ≤ BUF_CAP) (htx : s.comm.tx ≤ BUF_CAP)
    (hlen : s.sys.apdu_length ≤ BUF_CAP) (hp : packetFits p = true)
    (h : decode_event nm vr btn dec s p = some (t, o)) :
    t.comm.rx ≤ BUF_CAP ∧ t.comm.tx ≤ BUF_CAP := by
  unfold decode_event at h
  cases p with
  | buttonPush sample =>
    cases hbtn : (btn s.comm.buttons (sample / 2)).2 with
    | some ev =>
      simp only [hbtn] at h
      simp only [Option.some.injEq, Prod.mk.injEq] at h
      rw [← h.1]
      exact ⟨hrx, htx⟩
    | none =>
      simp only [hbtn] at h
      exact decode_body_bounds nm vr dec
        { s with comm := { s.comm with buttons := (btn s.comm.buttons (sample / 2)).1 } }
        t o hrx htx hlen h
  | ticker =>
    simp only [Option.some.injEq, Prod.mk.injEq] at h
    rw [← h.1]
    exact ⟨hrx, htx⟩
  | capdu payload =>
    have hpl : payload.length ≤ BUF_CAP := by
      simpa [packetFits] using hp
    exact decode_body_bounds nm vr dec (handle_capdu_event s payload) t o hrx htx hpl h
  | other =>
    exact decode_body_bounds nm vr dec s t o hrx htx hlen h

/-- A 261-byte payload forming a valid short-encoded command (byte 4 is the
declared length 1). -/
def c5Payload : List Nat := [0x00, 0x00, 0x00, 0x00, 0x01] ++ List.replicate 256 0

/-- A fresh waiting engine. -/
def c5Engine : EngineState :=
  { comm := Comm.new, sys := ⟨ApduState.idle, 0, 0⟩, sent := [] }

set_option maxRecDepth 4000 in
/-- C5 counterexample: `decode_event` copies the transport-signalled length
into `rx` (io.rs line 320) without checking it against the 260-byte
capacity: a 261-byte delivered command is decoded successfully (it even
surfaces as a command event) leaving `rx = 261 > 260`. -/
theorem rx_can_exceed_capacity :
    ((decode_event [] [] btnNone decUnit c5Engine (Packet.capdu c5Payload)).map
        (fun pr => (pr.1.comm.rx, pr.2.kind)) = some (261, OutKind.retCommand)) ∧
    BUF_CAP < 261 := by
  constructor <;> decide

/-- C5 (amended): `append`, indexed writes and `reply` keep the cursors
within the 260-byte capacity (each buffer write is bounds-checked before
data lands, and a reply zeroes both cursors), and `decode_event` preserves
the bounds provided the transport-signalled length — copied into `rx`
without any check of its own — is itself at most 260 (packet payloads that
fit the buffer). -/
theorem cursor_bounds :
    (∀ (c : Comm) (m : List Nat) (c2 : Comm), c.tx ≤ BUF_CAP →
      Comm.append c m = some c2 → c2.tx ≤ BUF_CAP ∧ c2.rx = c.rx) ∧
    (∀ (c : Comm) (i v : Nat) (c2 : Comm), c.tx ≤ BUF_CAP →
      comm_index_mut c i v = some c2 → c2.tx ≤ BUF_CAP ∧ c2.rx = c.rx) ∧
    (∀ (s t : EngineState) (r : Reply), reply s r = some t →
      t.comm.tx = 0 ∧ t.comm.rx = 0) ∧
    (∀ (T : Type) (nm vr : List Nat) (btn : Nat → Nat → Nat × Option Nat)
      (dec : ApduHeader → Except Reply T) (s t : EngineState) (o : DecodeOutcome T)
      (p : Packet), s.comm.rx ≤ BUF_CAP → s.comm.tx ≤ BUF_CAP →
      s.sys.apdu_length ≤ BUF_CAP → packetFits p = true →
      decode_event nm vr btn dec s p = some (t, o) →
      t.comm.rx ≤ BUF_CAP ∧ t.comm.tx ≤ BUF_CAP) := by
  refine ⟨?_, ?_, ?_, ?_⟩
  · intro c m
    induction m generalizing c with
    | nil =>
      intro c2 htx h
      cases h
      exact ⟨htx, rfl⟩
    | cons b rest ih =>
      intro c2 htx h
      unfold Comm.append at h
      cases hw : bufWrite c.apdu_buffer c.tx b with
      | none => rw [hw] at h; cases h
      | some f =>
        rw [hw, Option.some_bind] at h
        have hlt := bufWrite_some hw
        have hres := ih { c with apdu_buffer := f, tx := c.tx + 1 } c2
          (show c.tx + 1 ≤ BUF_CAP from by omega) h
        exact ⟨hres.1, hres.2⟩
  · intro c i v c2 htx h
    unfold comm_index_mut at h
    dsimp only at h
    cases hw : bufWrite c.apdu_buffer i v with
    | none => rw [hw] at h; cases h
    | some f =>
      rw [hw] at h
      simp only [Option.map_some', Option.some.injEq] at h
      cases h
      refine ⟨Nat.max_le.mpr ⟨Nat.le_of_lt (bufWrite_some hw), htx⟩, rfl⟩
  · intro s t r h
    obtain ⟨h1, h2, _⟩ := reply_resets s t r h
    exact ⟨h1, h2⟩
  · intro T nm vr btn dec s t o p hrx htx hlen hp h
    exact decode_event_bounds nm vr btn dec s t o p hrx htx hlen hp h

/-- The state of a one-byte append from a fresh engine. -/
def c5AppendRes : Comm := (Comm.append Comm.new [0x2a]).getD default

theorem cursor_bounds_witness :
    c5AppendRes.tx ≤ BUF_CAP ∧ c5AppendRes.rx = Comm.new.rx :=
  cursor_bounds.1 Comm.new [0x2a] c5AppendRes (by decide) rfl

end Ledger
